import Mathlib

/-!
# Verification of the ALFF bounded-concurrency fetch-and-merge pipeline

Shallow embedding of `src/alff/ALFF.py` (class `ALFF`): the lookup-key
extraction, the per-identifier frequency fetcher with its retry and parse
logic, the dispatcher that runs the fetcher over all keys, and the result
merger that writes frequencies back onto the input table.

Modelling conventions:
* Python dicts that map strings to values are association lists in key
  insertion order; writing an existing key replaces its value in place
  (`aset`), which matches CPython dict semantics.
* Frequencies are rationals (`ℚ`); the sentinel `-1` is the rational `-1`.
* One HTTP exchange is a `Resp` value; a whole run of the fetcher for one
  identifier is driven by a script `Nat → Resp` giving the response to the
  i-th request. A response body that fails JSON decoding is
  `Resp.http s none`.
* Python exceptions that `ALFF.fetch` does not catch are the `PyErr`
  error component of an `Except`; `sys.exit` calls in `ALFF.run` are the
  dedicated `RunErr` constructors.
-/

namespace Alff

/-- Generic lookup in a Python-dict-style association list
(first binding for the key, and keys are unique by construction). -/
def alookup {α : Type} : List (String × α) → String → Option α
  | [], _ => none
  | (k', v') :: rest, k => if k' = k then some v' else alookup rest k

/-- Generic write `dict[k] = v`: replace the binding in place if the key is
present, else append it.  This is CPython dict update semantics. -/
def aset {α : Type} : List (String × α) → String → α → List (String × α)
  | [], k, v => [(k, v)]
  | (k', v') :: rest, k, v =>
    if k' = k then (k, v) :: rest else (k', v') :: aset rest k v

/-- `ResultMap`: the shared results dictionary `self.d` of `ALFF`
(identifier → frequency, where `-1` is the not-found sentinel). -/
abbrev Smap := List (String × ℚ)

/-- pandas column dtypes that `pandas.read_csv` can infer for a delimited
text column: strings are stored with dtype `object`, integer columns as
`int64`, decimal columns as `float64`. -/
inductive Dtype where
  | object
  | int64
  | float64
deriving DecidableEq, Repr

/-- The Python comparison `df[c].dtype == str` (ALFF.py line 149 tests its
negation).  numpy converts `str` to the unicode dtype `<U`, which is a
different dtype from `object`, `int64` and `float64`, so the comparison is
`False` for every dtype that `pandas.read_csv` produces — including columns
that actually hold strings (their dtype is `object`). -/
def dtypeIsStr : Dtype → Bool
  | .object => false
  | .int64 => false
  | .float64 => false

/-- The input table as read by `pd.read_csv`: header, per-column inferred
dtypes, and rows of cells. -/
structure Table where
  cols : List String
  dtypes : List Dtype
  rows : List (List String)
deriving DecidableEq, Repr

/-- `df[c]` as a column of values; `none` models the `KeyError` raised when
the column is absent. -/
def Table.colVals (t : Table) (c : String) : Option (List String) :=
  match t.cols.findIdx? (fun x => x == c) with
  | none => none
  | some i => some (t.rows.map (fun r => r.getD i ""))

/-- Column access for a column known to exist (resolved column names). -/
def Table.colValsD (t : Table) (c : String) : List String :=
  (t.colVals c).getD []

/-- The inferred dtype of column `c` (`df[c].dtype`). -/
def Table.dtypeOf (t : Table) (c : String) : Dtype :=
  match t.cols.findIdx? (fun x => x == c) with
  | none => .object
  | some i => t.dtypes.getD i .object

/-- The runtime parameters of `ALFF` consumed by the core (`self.snp_col`,
`self.allele_col`, `self.organism`, `self.population`, `self.workers`,
`self.timeout`, `self.attempts`). -/
structure Config where
  snp_col : String
  allele_col : String
  organism : String
  population : String
  workers : Nat
  timeout : Nat
  attempts : Nat
deriving DecidableEq, Repr

/-- Value of the `allele_counts` key inside one organism entry of the
response: `population → (allele label → count)`. -/
structure OrgCounts where
  allele_counts : Option (List (String × List (String × Nat)))
deriving DecidableEq, Repr

/-- One entry of the response `results` object; `counts` maps an organism
code to its `OrgCounts`.  `none` models an absent key (Python `KeyError`). -/
structure SnpEntry where
  counts : Option (List (String × OrgCounts))
deriving DecidableEq, Repr

/-- A decoded JSON response body.  `results = none` models a body without
the top-level `results` key; entries are listed in key order (the code only
ever reads the first one). -/
structure Body where
  results : Option (List SnpEntry)
deriving DecidableEq, Repr

/-- One HTTP exchange as observed by `ALFF.fetch`: either the request
raised `requests.exceptions.Timeout`, or a response with the given status
arrived.  `body = none` models `response.json()` raising a decode error. -/
inductive Resp where
  | timeout
  | http (status : Nat) (body : Option Body)
deriving DecidableEq, Repr

/-- Python exceptions that escape `ALFF.fetch` / `ALFF.run` uncaught. -/
inductive PyErr where
  | jsonDecodeError
  | indexError
  | keyError (k : String)
deriving DecidableEq, Repr

/-- The nested lookup `counts → organism → allele_counts → population`
performed on the first results entry (ALFF.py line 207), with every
missing key at any depth collapsing to `none` (the surrounding
`except KeyError`). -/
def navigate (e : SnpEntry) (organism population : String) :
    Option (List (String × Nat)) :=
  match e.counts with
  | none => none
  | some cs =>
    match alookup cs organism with
    | none => none
    | some oc =>
      match oc.allele_counts with
      | none => none
      | some ac => alookup ac population

/-- The Python string method `upper()` used in the allele comparison on
ALFF.py line 218 (ASCII uppercasing, character by character). -/
def pyUpper (s : String) : String :=
  ⟨s.data.map Char.toUpper⟩

/-- What one loop iteration of `ALFF.fetch` (ALFF.py lines 190-227) does
with the response to its request. -/
inductive StepRes where
  | retry
  | done (write : Option ℚ)
  | crash (e : PyErr)
deriving DecidableEq, Repr

/-- `true` exactly on the outcomes where an exception escapes the loop
body uncaught. -/
def StepRes.isCrash : StepRes → Bool
  | .crash _ => true
  | _ => false

/-- The body of one attempt of `ALFF.fetch` (ALFF.py lines 191-227),
transcribed branch by branch:
* `Timeout` is caught: write `-1` and continue the loop (`retry`);
* status ≠ 200: write `-1` and return;
* `response.json()` decode failure: uncaught exception;
* missing `results` key (`KeyError`, line 202): write `-1` and return;
* empty `results` object: `list(res.keys())[0]` raises `IndexError`,
  uncaught;
* missing key anywhere in the counts navigation (line 208): write `-1` and
  return;
* zero total count: return without writing;
* otherwise write `counts[i]/sum` for the first allele label equal to the
  target allele up to `upper()`, or return without writing when none
  matches. -/
def step (cfg : Config) (allele : String) (r : Resp) : StepRes :=
  match r with
  | .timeout => .retry
  | .http status body =>
    if status ≠ 200 then .done (some (-1))
    else
      match body with
      | none => .crash .jsonDecodeError
      | some b =>
        match b.results with
        | none => .done (some (-1))
        | some [] => .crash .indexError
        | some (e :: _) =>
          match navigate e cfg.organism cfg.population with
          | none => .done (some (-1))
          | some res =>
            if (res.map Prod.snd).sum = 0 then .done none
            else
              match res.find? (fun q => pyUpper q.1 == pyUpper allele) with
              | none => .done none
              | some q =>
                .done (some ((q.2 : ℚ) / (((res.map Prod.snd).sum : Nat) : ℚ)))

/-- Result of one `ALFF.fetch` invocation: the updated dictionary, the
number of HTTP requests made, and the chronological list of dictionary
writes the invocation performed. -/
structure FetchOut where
  d : Smap
  calls : Nat
  writes : List (String × ℚ)
deriving DecidableEq, Repr

/-- The retry loop `for _ in range(self.attempts)` of `ALFF.fetch`:
`i` is the attempt index, `fuel` the remaining attempts, and `calls` and
`ws` accumulate the requests made and the writes performed so far. -/
def fetchAux (cfg : Config) (allele snp : String) (script : Nat → Resp) :
    Nat → Nat → Smap → Nat → List (String × ℚ) → Except PyErr FetchOut
  | _, 0, d, calls, ws => .ok ⟨d, calls, ws⟩
  | i, fuel + 1, d, calls, ws =>
    match step cfg allele (script i) with
    | .retry =>
      fetchAux cfg allele snp script (i + 1) fuel
        (aset d snp (-1)) (calls + 1) (ws ++ [(snp, -1)])
    | .done none => .ok ⟨d, calls + 1, ws⟩
    | .done (some q) => .ok ⟨aset d snp q, calls + 1, ws ++ [(snp, q)]⟩
    | .crash e => .error e

/-- `ALFF.fetch(session, snp, allele)` run against a response script,
starting from dictionary `d`. -/
def fetch (cfg : Config) (script : Nat → Resp) (snp allele : String)
    (d : Smap) : Except PyErr FetchOut :=
  fetchAux cfg allele snp script 0 cfg.attempts d 0 []

/-- The Lookup Key Extractor: `reference = dict(zip(snps, alleles))`
(ALFF.py line 246), a dict built by inserting the (snp, allele) pairs in
row order, so a duplicated identifier keeps its first position and its
last allele. -/
def buildRef (ps : List (String × String)) : List (String × String) :=
  ps.foldl (fun acc p => aset acc p.1 p.2) []

/-- The Concurrent Dispatcher, `ALFF.get_data_asynchronous` (ALFF.py
lines 248-255): run `fetch` once per reference entry and wait for all of
them.  Each worker writes only its own identifier key, so the final
dictionary content is that of running the fetches in sequence; an
exception from any fetch propagates through `asyncio.gather` and aborts
the dispatch.  `n` accumulates the total number of HTTP requests made. -/
def dispatch (cfg : Config) (scripts : String → Nat → Resp) :
    List (String × String) → Smap → Nat → Except PyErr (Smap × Nat)
  | [], d, n => .ok (d, n)
  | p :: rest, d, n =>
    match fetch cfg (scripts p.1) p.1 p.2 d with
    | .error e => .error e
    | .ok o => dispatch cfg scripts rest o.d (n + o.calls)

/-- The annotated output table written by `df.to_csv`: the original rows
in order, the (possibly extended) header, and the appended frequency
column. -/
structure Merged where
  cols : List String
  rows : List (List String)
  freqs : List ℚ
deriving DecidableEq, Repr

/-- The Result Merger, ALFF.py lines 160-161: the `freq` column is set to
the `MarkerName` column mapped through `self.d`, then `fillna(-1)` turns
the unmatched entries into `-1`.  The lookup column is the hard-coded
string `MarkerName`, not the resolved SNP column; if the table has no
`MarkerName` column, the access raises `KeyError`. -/
def mergeRun (t : Table) (d : Smap) : Except PyErr Merged :=
  match t.colVals "MarkerName" with
  | none => .error (.keyError "MarkerName")
  | some vs =>
    .ok ⟨if t.cols.contains "freq" then t.cols else t.cols ++ ["freq"],
         t.rows,
         vs.map (fun v => (alookup d v).getD (-1))⟩

/-- Modelled from the spec (section 4.4 Result Merger), for comparison
with `mergeRun`: for every row, a frequency equal to
`ResultMap[row value in the resolved SNP column]` if present, else `-1`;
row order and original columns preserved, the frequency column being the
only addition. -/
def mergeSpec (t : Table) (snpc : String) (d : Smap) : Except PyErr Merged :=
  match t.colVals snpc with
  | none => .error (.keyError snpc)
  | some vs =>
    .ok ⟨t.cols ++ ["freq"], t.rows,
         vs.map (fun v => (alookup d v).getD (-1))⟩

/-- The ways `ALFF.run` terminates abnormally: the `sys.exit(1)` calls for
a missing input file and for the allele-column dtype check, and any
uncaught Python exception. -/
inductive RunErr where
  | exitFileNotFound
  | exitAlleleNonString
  | pyErr (e : PyErr)
deriving DecidableEq, Repr

/-- SNP column resolution, ALFF.py lines 143-145: fall back to the first
column when the configured name is empty or absent. -/
def resolveSnpCol (cfg : Config) (t : Table) : String :=
  if (cfg.snp_col != "" && !(t.cols.contains cfg.snp_col))
      || cfg.snp_col == "" then
    t.cols.getD 0 ""
  else cfg.snp_col

/-- Allele column resolution, ALFF.py lines 147-152: fall back to the
second column when the configured name is empty or absent, and only in
that fallback branch test `df[col].dtype != str` and `sys.exit(1)` when it
holds.  A configured, present allele column is never dtype-checked. -/
def resolveAlleleCol (cfg : Config) (t : Table) : Except RunErr String :=
  if (cfg.allele_col != "" && !(t.cols.contains cfg.allele_col))
      || cfg.allele_col == "" then
    let c := t.cols.getD 1 ""
    if !(dtypeIsStr (t.dtypeOf c)) then .error .exitAlleleNonString
    else .ok c
  else .ok cfg.allele_col

/-- The mutable state of an `ALFF` instance across calls of `run`:
the shared results dictionary `self.d`, the number of times the output
file has been written, and the total number of HTTP requests made. -/
structure AppState where
  d : Smap
  written : Nat
  calls : Nat
deriving DecidableEq, Repr

/-- One call of `ALFF.run` (ALFF.py lines 126-167) on an instance in state
`s`, with the input table already read: resolve the two columns (possibly
exiting), dispatch the fetches over the extracted reference, merge by the
`MarkerName` column, and write the output file once. -/
def ALFF_run (cfg : Config) (scripts : String → Nat → Resp) (t : Table)
    (s : AppState) : Except RunErr (AppState × Merged) :=
  let snpc := resolveSnpCol cfg t
  match resolveAlleleCol cfg t with
  | .error e => .error e
  | .ok alc =>
    let snps := t.colValsD snpc
    let alleles := t.colValsD alc
    let ref := buildRef (snps.zip alleles)
    match dispatch cfg scripts ref s.d 0 with
    | .error e => .error (.pyErr e)
    | .ok (d', n) =>
      match mergeRun t d' with
      | .error e => .error (.pyErr e)
      | .ok m => .ok (⟨d', s.written + 1, s.calls + n⟩, m)

/-- `ALFF.__init__` (ALFF.py lines 123-124): set `self.d = {}` and call
`self.run()`. -/
def ALFF_init (cfg : Config) (scripts : String → Nat → Resp) (t : Table) :
    Except RunErr (AppState × Merged) :=
  ALFF_run cfg scripts t ⟨[], 0, 0⟩

/-- The `__main__` entry point (ALFF.py lines 374-375): construct the
instance (`app = ALFF()`, which already runs the whole pipeline once) and
then call `app.run()` again on the same instance. -/
def ALFF_main (cfg : Config) (scripts : String → Nat → Resp) (t : Table) :
    Except RunErr (AppState × Merged) :=
  match ALFF_init cfg scripts t with
  | .error e => .error e
  | .ok (s1, _) => ALFF_run cfg scripts t s1

/-- Proof helper: the dictionary after a chronological list of writes of
values `vs` to the single key `snp`. -/
def applyVals (snp : String) : Smap → List ℚ → Smap
  | d, [] => d
  | d, v :: vs => applyVals snp (aset d snp v) vs

/-- Proof helper: the outcome of the retry loop as a function of the
response script alone — the list of values written to the key (in order)
and the number of requests made, or the uncaught exception.  `fetchAux`
is this interpreter applied to the accumulators (lemma `fetchAux_eq`). -/
def scriptOutcome (cfg : Config) (allele : String) (script : Nat → Resp) :
    Nat → Nat → Except PyErr (List ℚ × Nat)
  | _, 0 => .ok ([], 0)
  | i, fuel + 1 =>
    match step cfg allele (script i) with
    | .retry =>
      match scriptOutcome cfg allele script (i + 1) fuel with
      | .error e => .error e
      | .ok (vs, n) => .ok ((-1 : ℚ) :: vs, n + 1)
    | .done none => .ok ([], 1)
    | .done (some q) => .ok ([q], 1)
    | .crash e => .error e

/-! ## Concrete inputs used by witnesses and counterexamples -/

/-- A well-formed response body whose first results entry maps
`organism → allele_counts → population → ac`. -/
def goodBody (organism population : String) (ac : List (String × Nat)) :
    Body :=
  ⟨some [⟨some [(organism, ⟨some [(population, ac)]⟩)]⟩]⟩

/-- The default runtime parameters of `ALFF` (argparse defaults). -/
def cfgBase : Config :=
  ⟨"", "", "PRJNA507278", "SAMN10492695", 5, 5, 5⟩

/-- Parameters with both column names configured and present. -/
def cfgCols : Config :=
  { cfgBase with snp_col := "MarkerName", allele_col := "allele" }

/-- A one-row input table whose first column happens to be named
`MarkerName` (the name the merger hard-codes). -/
def tMk : Table :=
  ⟨["MarkerName", "allele"], [.object, .object], [["rs1", "A"]]⟩

/-- A one-row input table with ordinary column names (no `MarkerName`). -/
def tSnp : Table :=
  ⟨["snp", "allele"], [.object, .object], [["rs1", "A"]]⟩

/-- `tMk` with a numeric (non-string) allele column. -/
def tNum : Table :=
  ⟨["MarkerName", "allele"], [.object, .int64], [["rs1", "1"]]⟩

/-- Every request is answered with HTTP 404. -/
def scripts404 : String → Nat → Resp := fun _ _ => .http 404 none

/-- `rs1` gets a 200 response whose body fails JSON decoding; every other
identifier gets a 404. -/
def scriptsBadJson : String → Nat → Resp :=
  fun s _ => if s = "rs1" then .http 200 none else .http 404 none

/-- Every request succeeds with a zero-total allele count mapping. -/
def scriptsZero : String → Nat → Resp :=
  fun _ _ =>
    .http 200 (some (goodBody "PRJNA507278" "SAMN10492695"
      [("A", 0), ("T", 0)]))

/-- Every request succeeds with counts `{A: 30, T: 70}`. -/
def scriptsAT : String → Nat → Resp :=
  fun _ _ =>
    .http 200 (some (goodBody "PRJNA507278" "SAMN10492695"
      [("A", 30), ("T", 70)]))

/-- First attempt times out, every later attempt succeeds with counts
`{A: 30, T: 70}`. -/
def scriptTimeoutThenAT : Nat → Resp :=
  fun i => if i = 0 then .timeout else
    .http 200 (some (goodBody "PRJNA507278" "SAMN10492695"
      [("A", 30), ("T", 70)]))

/-- Default parameters with two attempts. -/
def cfgTwo : Config := { cfgBase with attempts := 2 }

/-- The frequency `30/100` in the unreduced form the fetcher computes. -/
def q30 : ℚ := ((30 : Nat) : ℚ) / ((100 : Nat) : ℚ)

/-- The fetch outcome of `cfgTwo` with `scriptTimeoutThenAT` for
identifier `rs1`, target allele `a`: a tentative `-1` written on the
timeout, then overwritten by `30/100`. -/
def foTwoWrites : FetchOut :=
  ⟨[("rs1", q30)], 2, [("rs1", (-1 : ℚ)), ("rs1", q30)]⟩

/-- A ResultMap holding a frequency for `rs1`. -/
def dHalf : Smap := [("rs1", (1 : ℚ) / 2)]

/-- Instance state after one `run` pass of `cfgCols`/`scripts404`/`tMk`. -/
def sInit : AppState := ⟨[("rs1", (-1 : ℚ))], 1, 1⟩

/-- Instance state after the second `run` pass of the same invocation. -/
def sMain : AppState := ⟨[("rs1", (-1 : ℚ))], 2, 2⟩

/-- The merged output table for `tMk` when `rs1` resolved to `-1`. -/
def mMk : Merged :=
  ⟨["MarkerName", "allele", "freq"], [["rs1", "A"]], [(-1 : ℚ)]⟩

/-- The response body entry used by the retry witnesses. -/
def entryAT : SnpEntry :=
  ⟨some [("PRJNA507278",
    ⟨some [("SAMN10492695", [("A", 30), ("T", 70)])]⟩)]⟩

/-! ## Dictionary lemmas -/

theorem alookup_aset_self {α : Type} (l : List (String × α)) (k : String)
    (v : α) : alookup (aset l k v) k = some v := by
  induction l with
  | nil => simp [aset, alookup]
  | cons p rest ih =>
    obtain ⟨k', v'⟩ := p
    by_cases h : k' = k
    · simp [aset, h, alookup]
    · simp [aset, h, alookup, ih]

theorem alookup_aset_ne {α : Type} (l : List (String × α)) (k k' : String)
    (v : α) (h : k' ≠ k) : alookup (aset l k v) k' = alookup l k' := by
  induction l with
  | nil =>
    simp only [aset, alookup]
    rw [if_neg (Ne.symm h)]
  | cons p rest ih =>
    obtain ⟨k₁, v₁⟩ := p
    by_cases h1 : k₁ = k
    · subst h1
      simp only [aset, alookup, if_pos rfl]
      rw [if_neg (Ne.symm h), if_neg (Ne.symm h)]
    · simp [aset, h1, alookup, ih]

theorem alookup_applyVals_ne (snp k : String) (h : k ≠ snp) :
    ∀ (vs : List ℚ) (d : Smap),
    alookup (applyVals snp d vs) k = alookup d k := by
  intro vs
  induction vs with
  | nil => intro d; rfl
  | cons v vs ih =>
    intro d
    show alookup (applyVals snp (aset d snp v) vs) k = alookup d k
    rw [ih, alookup_aset_ne _ _ _ _ h]

theorem alookup_applyVals_self (snp : String) :
    ∀ (vs : List ℚ) (d : Smap),
    alookup (applyVals snp d vs) snp =
      (match vs.getLast? with
        | none => alookup d snp
        | some v => some v) := by
  intro vs
  induction vs with
  | nil => intro d; rfl
  | cons v vs ih =>
    intro d
    show alookup (applyVals snp (aset d snp v) vs) snp = _
    rw [ih]
    cases vs with
    | nil => simp [alookup_aset_self]
    | cons w ws =>
      rw [List.getLast?_cons_cons]
      cases hw : (w :: ws).getLast? with
      | none => simp at hw
      | some u => rfl

/-! ## The fetch loop as a script interpreter -/

theorem fetchAux_eq (cfg : Config) (allele snp : String)
    (script : Nat → Resp) :
    ∀ (fuel i : Nat) (d : Smap) (calls : Nat) (ws : List (String × ℚ)),
    fetchAux cfg allele snp script i fuel d calls ws =
      (match scriptOutcome cfg allele script i fuel with
        | .error e => .error e
        | .ok (vs, n) =>
          .ok ⟨applyVals snp d vs, calls + n,
            ws ++ vs.map (fun v => (snp, v))⟩) := by
  intro fuel
  induction fuel with
  | zero => intro i d calls ws; simp [fetchAux, scriptOutcome, applyVals]
  | succ fuel ih =>
    intro i d calls ws
    simp only [fetchAux, scriptOutcome]
    cases hs : step cfg allele (script i) with
    | retry =>
      rw [ih]
      cases ho : scriptOutcome cfg allele script (i + 1) fuel with
      | error e => rfl
      | ok r =>
        obtain ⟨vs, n⟩ := r
        have hc : calls + 1 + n = calls + (n + 1) := by omega
        simp only [applyVals, List.map_cons, List.append_assoc,
          List.singleton_append]
        rw [hc]
    | done q =>
      cases q with
      | none => simp [applyVals]
      | some v => simp [applyVals]
    | crash e => rfl

theorem fetch_eq (cfg : Config) (script : Nat → Resp)
    (snp allele : String) (d : Smap) :
    fetch cfg script snp allele d =
      (match scriptOutcome cfg allele script 0 cfg.attempts with
        | .error e => .error e
        | .ok (vs, n) =>
          .ok ⟨applyVals snp d vs, n, vs.map (fun v => (snp, v))⟩) := by
  have h := fetchAux_eq cfg allele snp script cfg.attempts 0 d 0 []
  rw [fetch, h]
  cases scriptOutcome cfg allele script 0 cfg.attempts with
  | error e => rfl
  | ok r => obtain ⟨vs, n⟩ := r; simp

theorem scriptOutcome_ok_of_nocrash (cfg : Config) (allele : String)
    (script : Nat → Resp) :
    ∀ (fuel i : Nat),
    (∀ j, j < fuel → (step cfg allele (script (i + j))).isCrash = false) →
    ∃ r, scriptOutcome cfg allele script i fuel = .ok r := by
  intro fuel
  induction fuel with
  | zero => intro i _; exact ⟨([], 0), rfl⟩
  | succ fuel ih =>
    intro i h
    have h0 := h 0 (Nat.succ_pos _)
    rw [Nat.add_zero] at h0
    simp only [scriptOutcome]
    cases hs : step cfg allele (script i) with
    | retry =>
      obtain ⟨r, hr⟩ := ih (i + 1) (fun j hj => by
        have hh := h (j + 1) (by omega)
        rwa [show i + (j + 1) = i + 1 + j by omega] at hh)
      obtain ⟨vs, n⟩ := r
      rw [hr]
      exact ⟨_, rfl⟩
    | done q => cases q <;> exact ⟨_, rfl⟩
    | crash e => rw [hs] at h0; simp [StepRes.isCrash] at h0

theorem scriptOutcome_timeouts (cfg : Config) (allele : String)
    (script : Nat → Resp) :
    ∀ (k fuel i : Nat),
    (∀ j, j < k → step cfg allele (script (i + j)) = .retry) →
    scriptOutcome cfg allele script i (k + fuel) =
      (match scriptOutcome cfg allele script (i + k) fuel with
        | .error e => .error e
        | .ok (vs, n) =>
          .ok (List.replicate k (-1 : ℚ) ++ vs, n + k)) := by
  intro k
  induction k with
  | zero =>
    intro fuel i _
    rw [Nat.zero_add, Nat.add_zero]
    cases ho : scriptOutcome cfg allele script i fuel with
    | error e => rfl
    | ok r => obtain ⟨vs, n⟩ := r; simp
  | succ k ih =>
    intro fuel i h
    have h0 : step cfg allele (script i) = .retry := by
      have hh := h 0 (Nat.succ_pos _)
      rwa [Nat.add_zero] at hh
    rw [show k + 1 + fuel = (k + fuel) + 1 by omega]
    simp only [scriptOutcome, h0]
    rw [ih fuel (i + 1) (fun j hj => by
      have hh := h (j + 1) (by omega)
      rwa [show i + (j + 1) = i + 1 + j by omega] at hh)]
    rw [show i + 1 + k = i + (k + 1) by omega]
    cases ho : scriptOutcome cfg allele script (i + (k + 1)) fuel with
    | error e => rfl
    | ok r =>
      obtain ⟨vs, n⟩ := r
      have hn : n + k + 1 = n + (k + 1) := by omega
      simp only [List.replicate_succ, List.cons_append, hn]

/-! ## Dispatcher lemmas -/

theorem dispatch_preserve (cfg : Config) (scripts : String → Nat → Resp) :
    ∀ (ref : List (String × String)) (d₀ : Smap) (n₀ : Nat) (d : Smap)
      (n : Nat),
    dispatch cfg scripts ref d₀ n₀ = .ok (d, n) →
    ∀ k, k ∉ ref.map Prod.fst → alookup d k = alookup d₀ k := by
  intro ref
  induction ref with
  | nil =>
    intro d₀ n₀ d n hd k _
    simp only [dispatch, Except.ok.injEq, Prod.mk.injEq] at hd
    rw [hd.1]
  | cons p rest ih =>
    intro d₀ n₀ d n hd k hk
    simp only [dispatch] at hd
    cases hf : fetch cfg (scripts p.1) p.1 p.2 d₀ with
    | error e => rw [hf] at hd; exact absurd hd (by simp)
    | ok o =>
      rw [hf] at hd
      have hk1 : k ≠ p.1 := by
        intro hh; exact hk (by simp [hh])
      have hk2 : k ∉ rest.map Prod.fst := by
        intro hh; exact hk (by simp [hh])
      rw [ih o.d (n₀ + o.calls) d n hd k hk2]
      rw [fetch_eq] at hf
      cases ho : scriptOutcome cfg p.2 (scripts p.1) 0 cfg.attempts with
      | error e => rw [ho] at hf; exact absurd hf (by simp)
      | ok r =>
        obtain ⟨vs, m⟩ := r
        rw [ho] at hf
        simp only [Except.ok.injEq] at hf
        rw [← hf]
        exact alookup_applyVals_ne p.1 k hk1 vs d₀

/-- The number of HTTP requests a dispatch makes does not depend on the
dictionary it starts from (the retry loop never reads the dictionary). -/
theorem dispatch_calls (cfg : Config) (scripts : String → Nat → Resp) :
    ∀ (ref : List (String × String)),
    (∃ e, ∀ (d : Smap) (n : Nat), dispatch cfg scripts ref d n = .error e) ∨
    (∃ k, ∀ (d : Smap) (n : Nat),
      ∃ d', dispatch cfg scripts ref d n = .ok (d', n + k)) := by
  intro ref
  induction ref with
  | nil => exact .inr ⟨0, fun d n => ⟨d, by simp [dispatch]⟩⟩
  | cons p rest ih =>
    cases ho : scriptOutcome cfg p.2 (scripts p.1) 0 cfg.attempts with
    | error e =>
      refine .inl ⟨e, fun d n => ?_⟩
      simp only [dispatch, fetch_eq, ho]
    | ok r =>
      obtain ⟨vs, m⟩ := r
      cases ih with
      | inl he =>
        obtain ⟨e, he⟩ := he
        refine .inl ⟨e, fun d n => ?_⟩
        simp only [dispatch, fetch_eq, ho]
        exact he _ _
      | inr hk =>
        obtain ⟨k, hk⟩ := hk
        refine .inr ⟨m + k, fun d n => ?_⟩
        simp only [dispatch, fetch_eq, ho]
        obtain ⟨d', hd'⟩ := hk (applyVals p.1 d vs) (n + m)
        exact ⟨d', by rw [hd']; congr 1; congr 1; omega⟩

/-- After a successful dispatch over a duplicate-free reference, every
reference key either holds a value in the final dictionary, or its entry
is exactly as it was before the dispatch because its own fetch performed
no write at all. -/
theorem dispatch_keys (cfg : Config) (scripts : String → Nat → Resp) :
    ∀ (ref : List (String × String)) (d₀ : Smap) (n₀ : Nat) (d : Smap)
      (n : Nat),
    (ref.map Prod.fst).Nodup →
    dispatch cfg scripts ref d₀ n₀ = .ok (d, n) →
    ∀ p ∈ ref, (∃ q, alookup d p.1 = some q) ∨
      (alookup d p.1 = alookup d₀ p.1 ∧
        ∃ o, fetch cfg (scripts p.1) p.1 p.2 [] = .ok o ∧ o.writes = []) := by
  intro ref
  induction ref with
  | nil => intro d₀ n₀ d n _ _ p hp; cases hp
  | cons hd rest ih =>
    intro d₀ n₀ d n hnod hdisp p hp
    simp only [List.map_cons, List.nodup_cons] at hnod
    obtain ⟨hni, hnod'⟩ := hnod
    simp only [dispatch] at hdisp
    cases ho : scriptOutcome cfg hd.2 (scripts hd.1) 0 cfg.attempts with
    | error e =>
      rw [fetch_eq, ho] at hdisp
      exact absurd hdisp (by simp)
    | ok r =>
      obtain ⟨vs, m⟩ := r
      rw [fetch_eq, ho] at hdisp
      cases List.mem_cons.mp hp with
      | inl he =>
        subst he
        have hrest : alookup d p.1 = alookup (applyVals p.1 d₀ vs) p.1 :=
          dispatch_preserve cfg scripts rest _ _ d n hdisp p.1 hni

        cases vs with
        | nil =>
          refine .inr ⟨by rw [hrest]; rfl, ⟨applyVals p.1 [] [], m, []⟩, ?_, rfl⟩
          rw [fetch_eq, ho]
          rfl
        | cons v vs' =>
          refine .inl ?_
          rw [hrest, alookup_applyVals_self]
          cases hl : (v :: vs').getLast? with
          | none => simp at hl
          | some u => exact ⟨u, rfl⟩
      | inr hm =>
        cases ih (applyVals hd.1 d₀ vs) (n₀ + m) d n hnod' hdisp p hm with
        | inl hq => exact .inl hq
        | inr hq =>
          obtain ⟨heq, ho'⟩ := hq
          have hne : p.1 ≠ hd.1 := by
            intro hh
            exact hni (hh ▸ List.mem_map_of_mem Prod.fst hm)
          refine .inr ⟨?_, ho'⟩
          rw [heq, alookup_applyVals_ne hd.1 p.1 hne]

/-! ## Lookup Key Extractor lemmas -/

theorem aset_keys {α : Type} (l : List (String × α)) (k : String) (v : α) :
    (aset l k v).map Prod.fst =
      if k ∈ l.map Prod.fst then l.map Prod.fst
      else l.map Prod.fst ++ [k] := by
  induction l with
  | nil => simp [aset]
  | cons p rest ih =>
    obtain ⟨k₁, v₁⟩ := p
    by_cases h : k₁ = k
    · subst h; simp [aset]
    · simp only [aset, if_neg h, List.map_cons, ih]
      by_cases hm : k ∈ rest.map Prod.fst
      · simp [hm, List.mem_cons]
      · have hk1 : ¬k = k₁ := fun hh => h hh.symm
        simp [hm, List.mem_cons, hk1]

theorem foldl_aset_keys_nodup :
    ∀ (ps acc : List (String × String)),
    (acc.map Prod.fst).Nodup →
    ((ps.foldl (fun a p => aset a p.1 p.2) acc).map Prod.fst).Nodup := by
  intro ps
  induction ps with
  | nil => intro acc h; exact h
  | cons p rest ih =>
    intro acc h
    refine ih (aset acc p.1 p.2) ?_
    rw [aset_keys]
    by_cases hm : p.1 ∈ acc.map Prod.fst
    · rw [if_pos hm]; exact h
    · rw [if_neg hm]
      simp [List.nodup_append, h, hm]

theorem buildRef_keys_nodup (ps : List (String × String)) :
    ((buildRef ps).map Prod.fst).Nodup :=
  foldl_aset_keys_nodup ps [] (by simp)

theorem mem_foldl_aset_keys :
    ∀ (ps acc : List (String × String)) (v : String),
    (v ∈ acc.map Prod.fst ∨ ∃ a, (v, a) ∈ ps) →
    v ∈ (ps.foldl (fun a p => aset a p.1 p.2) acc).map Prod.fst := by
  intro ps
  induction ps with
  | nil =>
    intro acc v h
    cases h with
    | inl hh => exact hh
    | inr hh => obtain ⟨a, ha⟩ := hh; cases ha
  | cons p rest ih =>
    intro acc v h
    refine ih (aset acc p.1 p.2) v ?_
    cases h with
    | inl hh =>
      refine .inl ?_
      rw [aset_keys]
      by_cases hm : p.1 ∈ acc.map Prod.fst
      · rw [if_pos hm]; exact hh
      · rw [if_neg hm]; exact List.mem_append_left _ hh
    | inr hh =>
      obtain ⟨a, ha⟩ := hh
      cases List.mem_cons.mp ha with
      | inl he =>
        refine .inl ?_
        have hv : v = p.1 := by rw [← he]
        rw [hv, aset_keys]
        by_cases hm : p.1 ∈ acc.map Prod.fst
        · rw [if_pos hm]; exact hm
        · rw [if_neg hm]; exact List.mem_append_right _ (by simp)
      | inr hmm => exact .inr ⟨a, hmm⟩

theorem buildRef_mem (ps : List (String × String)) (v : String)
    (h : ∃ a, (v, a) ∈ ps) : v ∈ (buildRef ps).map Prod.fst :=
  mem_foldl_aset_keys ps [] v (.inr h)

theorem mem_keys_exists {α : Type} (l : List (String × α)) (v : String)
    (h : v ∈ l.map Prod.fst) : ∃ a, (v, a) ∈ l := by
  obtain ⟨p, hp, he⟩ := List.mem_map.mp h
  obtain ⟨k, a⟩ := p
  exact ⟨a, by rwa [← he]⟩

theorem mem_zip_left :
    ∀ (xs ys : List String) (v : String), v ∈ xs →
    xs.length = ys.length → ∃ a, (v, a) ∈ xs.zip ys := by
  intro xs
  induction xs with
  | nil => intro ys v hv; cases hv
  | cons x xs ih =>
    intro ys v hv hl
    cases ys with
    | nil => simp at hl
    | cons y ys =>
      cases List.mem_cons.mp hv with
      | inl he => exact ⟨y, by simp [he]⟩
      | inr hm =>
        obtain ⟨a, ha⟩ := ih ys v hm (by simpa using hl)
        exact ⟨a, List.mem_cons_of_mem _ ha⟩

/-! ## Step characterization lemmas -/

theorem step_timeout (cfg : Config) (allele : String) :
    step cfg allele .timeout = .retry := rfl

theorem step_non200 (cfg : Config) (allele : String) (status : Nat)
    (body : Option Body) (h : status ≠ 200) :
    step cfg allele (.http status body) = .done (some (-1)) := by
  simp [step, h]

theorem step_badjson (cfg : Config) (allele : String) :
    step cfg allele (.http 200 none) = .crash .jsonDecodeError := by
  simp [step]

theorem step_parse (cfg : Config) (allele : String) (b : Body)
    (e : SnpEntry) (rest : List SnpEntry) (res : List (String × Nat))
    (p : String × Nat)
    (hres : b.results = some (e :: rest))
    (hnav : navigate e cfg.organism cfg.population = some res)
    (hsum : (res.map Prod.snd).sum ≠ 0)
    (hfind : res.find? (fun q => pyUpper q.1 == pyUpper allele) = some p) :
    step cfg allele (.http 200 (some b)) =
      .done (some ((p.2 : ℚ) / (((res.map Prod.snd).sum : Nat) : ℚ))) := by
  simp [step, hres, hnav, hsum, hfind]

theorem step_zero_total (cfg : Config) (allele : String) (b : Body)
    (e : SnpEntry) (rest : List SnpEntry) (res : List (String × Nat))
    (hres : b.results = some (e :: rest))
    (hnav : navigate e cfg.organism cfg.population = some res)
    (hsum : (res.map Prod.snd).sum = 0) :
    step cfg allele (.http 200 (some b)) = .done none := by
  simp [step, hres, hnav, hsum]

/-! ## First-attempt fetch lemmas -/

theorem fetch_first_some (cfg : Config) (script : Nat → Resp)
    (snp allele : String) (d : Smap) (h1 : 1 ≤ cfg.attempts) (q : ℚ)
    (hs : step cfg allele (script 0) = .done (some q)) :
    fetch cfg script snp allele d = .ok ⟨aset d snp q, 1, [(snp, q)]⟩ := by
  obtain ⟨m, hm⟩ : ∃ m, cfg.attempts = m + 1 := ⟨cfg.attempts - 1, by omega⟩
  rw [fetch, hm]
  simp [fetchAux, hs]

theorem fetch_first_none (cfg : Config) (script : Nat → Resp)
    (snp allele : String) (d : Smap) (h1 : 1 ≤ cfg.attempts)
    (hs : step cfg allele (script 0) = .done none) :
    fetch cfg script snp allele d = .ok ⟨d, 1, []⟩ := by
  obtain ⟨m, hm⟩ : ∃ m, cfg.attempts = m + 1 := ⟨cfg.attempts - 1, by omega⟩
  rw [fetch, hm]
  simp [fetchAux, hs]

/-! ## Pipeline characterization -/

/-- A successful `ALFF.run` call decomposes into column resolution, one
dispatch starting from the instance dictionary, and the merge; the state
advances by one output write and the dispatch call count. -/
theorem ALFF_run_ok (cfg : Config) (scripts : String → Nat → Resp)
    (t : Table) (s s' : AppState) (m' : Merged)
    (h : ALFF_run cfg scripts t s = .ok (s', m')) :
    ∃ alc d' n, resolveAlleleCol cfg t = .ok alc ∧
      dispatch cfg scripts
        (buildRef ((t.colValsD (resolveSnpCol cfg t)).zip (t.colValsD alc)))
        s.d 0 = .ok (d', n) ∧
      mergeRun t d' = .ok m' ∧
      s' = ⟨d', s.written + 1, s.calls + n⟩ := by
  simp only [ALFF_run] at h
  split at h
  · exact absurd h (by simp)
  next alc ha =>
    split at h
    · exact absurd h (by simp)
    next d' n hd =>
      split at h
      · exact absurd h (by simp)
      next m hm =>
        simp only [Except.ok.injEq, Prod.mk.injEq] at h
        exact ⟨alc, d', n, ha, hd, h.2 ▸ hm, h.1.symm⟩

/-! ## Claims -/

/-- Claim C1 (code bug): the Result Merger is supposed to assign each row
the ResultMap value of its entry in the resolved SNP column, but ALFF.py
line 160 looks rows up in the hard-coded column `MarkerName`.  On a table
whose SNP column resolves to `snp`, the merge as coded raises `KeyError`
and the run aborts with no output, while the merger described by the spec
produces the looked-up frequency with the row, column and order contract
intact. -/
theorem C1_merger_hardcodes_markername :
    resolveSnpCol cfgBase tSnp = "snp" ∧
    mergeRun tSnp dHalf = .error (.keyError "MarkerName") ∧
    mergeSpec tSnp (resolveSnpCol cfgBase tSnp) dHalf =
      .ok ⟨["snp", "allele", "freq"], [["rs1", "A"]], [(1 : ℚ) / 2]⟩ :=
  ⟨rfl, rfl, rfl⟩

/-- Claim C2 counterexample: a malformed JSON body on a 200 response for
one identifier is not resolved to `-1` inside the Fetcher — the decode
error escapes `ALFF.fetch` uncaught, propagates through `asyncio.gather`,
and aborts the whole run. -/
theorem C2_badjson_aborts_run :
    ALFF_run cfgCols scriptsBadJson tMk ⟨[], 0, 0⟩ =
      .error (.pyErr .jsonDecodeError) :=
  rfl

/-- Claim C2 amended: every per-identifier lookup failure except a JSON
body that fails to decode on a 200 response, and except a 200 response
whose `results` object has no entries, is handled inside the Fetcher and
resolved to `-1` or the default for that identifier only: when no attempt
produces one of those two uncaught-exception outcomes, the invocation
returns normally and leaves the entry of every other identifier
untouched. -/
theorem C2_amended_isolation (cfg : Config) (script : Nat → Resp)
    (snp allele : String) (d : Smap)
    (h : ∀ i, i < cfg.attempts →
      (step cfg allele (script i)).isCrash = false) :
    ∃ o, fetch cfg script snp allele d = .ok o ∧
      ∀ k, k ≠ snp → alookup o.d k = alookup d k := by
  obtain ⟨r, hr⟩ := scriptOutcome_ok_of_nocrash cfg allele script
    cfg.attempts 0 (fun j hj => by simpa using h j hj)
  obtain ⟨vs, n⟩ := r
  refine ⟨⟨applyVals snp d vs, n, vs.map (fun v => (snp, v))⟩, ?_, ?_⟩
  · rw [fetch_eq, hr]
  · intro k hk
    exact alookup_applyVals_ne snp k hk vs d

theorem C2_amended_isolation_witness :
    ∃ o, fetch cfgBase (scriptsBadJson "rs2") "rs2" "T" dHalf = .ok o ∧
      ∀ k, k ≠ "rs2" → alookup o.d k = alookup dHalf k :=
  C2_amended_isolation cfgBase (scriptsBadJson "rs2") "rs2" "T" dHalf
    (by decide)

/-- Claim C3 (confirmed): one program invocation runs the whole pipeline
twice — the constructor calls `run()` and `__main__` calls `app.run()`
again on the same instance, so the second pass starts from the first
result dictionary of the first pass, the output file is written twice,
and the total
number of network requests is exactly double that of a single pass. -/
theorem C3_pipeline_runs_twice (cfg : Config)
    (scripts : String → Nat → Resp) (t : Table) (s1 : AppState)
    (m1 : Merged) (hinit : ALFF_init cfg scripts t = .ok (s1, m1)) :
    ALFF_main cfg scripts t = ALFF_run cfg scripts t s1 ∧
    s1.written = 1 ∧
    ∀ s2 m2, ALFF_run cfg scripts t s1 = .ok (s2, m2) →
      s2.written = 2 ∧ s2.calls = 2 * s1.calls := by
  have hinit' : ALFF_run cfg scripts t ⟨[], 0, 0⟩ = .ok (s1, m1) := hinit
  obtain ⟨alc1, d1, n1, ha1, hd1, hm1, hs1⟩ :=
    ALFF_run_ok cfg scripts t _ s1 m1 hinit'
  refine ⟨by simp only [ALFF_main, hinit], by rw [hs1], ?_⟩
  intro s2 m2 hrun
  obtain ⟨alc2, d2, n2, ha2, hd2, hm2, hs2⟩ :=
    ALFF_run_ok cfg scripts t s1 s2 m2 hrun
  have halc : alc1 = alc2 := by
    rw [ha1] at ha2
    exact (Except.ok.injEq _ _).mp ha2
  subst halc
  cases dispatch_calls cfg scripts
      (buildRef ((t.colValsD (resolveSnpCol cfg t)).zip
        (t.colValsD alc1))) with
  | inl he =>
    obtain ⟨e, he⟩ := he
    rw [he] at hd1
    exact absurd hd1 (by simp)
  | inr hk =>
    obtain ⟨k, hk⟩ := hk
    obtain ⟨dA, hA⟩ := hk (AppState.mk [] 0 0).d 0
    obtain ⟨dB, hB⟩ := hk s1.d 0
    rw [hA] at hd1
    rw [hB] at hd2
    have h1 := (Except.ok.injEq _ _).mp hd1
    have h2 := (Except.ok.injEq _ _).mp hd2
    have hn1 : n1 = k := by
      have hx : 0 + k = n1 := congrArg Prod.snd h1
      omega
    have hn2 : n2 = k := by
      have hx : 0 + k = n2 := congrArg Prod.snd h2
      omega
    constructor
    · rw [hs2, hs1]
    · rw [hs2, hs1]
      show 0 + n1 + n2 = 2 * (0 + n1)
      omega

theorem C3_pipeline_runs_twice_witness :
    ALFF_main cfgCols scripts404 tMk = ALFF_run cfgCols scripts404 tMk sInit ∧
    sInit.written = 1 ∧ sMain.written = 2 ∧ sMain.calls = 2 * sInit.calls := by
  have h := C3_pipeline_runs_twice cfgCols scripts404 tMk sInit mMk rfl
  exact ⟨h.1, h.2.1, (h.2.2 sMain mMk rfl).1, (h.2.2 sMain mMk rfl).2⟩

/-- Claim C4 counterexample: an identifier whose successful lookup returns
zero-total counts is silently absent from ResultMap after the Dispatcher
completes — `rs1` is in the SNP column of the input, the run finishes, and
the final dictionary is empty. -/
theorem C4_zero_total_key_absent :
    ALFF_run cfgCols scriptsZero tMk ⟨[], 0, 0⟩ =
      .ok (⟨[], 1, 1⟩,
        ⟨["MarkerName", "allele", "freq"], [["rs1", "A"]], [(-1 : ℚ)]⟩) ∧
    tMk.colValsD (resolveSnpCol cfgCols tMk) = ["rs1"] ∧
    alookup ([] : Smap) "rs1" = none :=
  ⟨rfl, rfl, rfl⟩

/-- Claim C4 amended: after the Dispatcher completes, every identifier of
the input SNP column either appears as a key of ResultMap, or is absent
exactly because its own fetch invocation performed no dictionary write (a
successful response with zero total count, or with no case-insensitive
allele match, and no earlier timeout attempt); such an identifier then
receives the merge-time default `-1`. -/
theorem C4_amended_every_key (cfg : Config)
    (scripts : String → Nat → Resp) (snps alleles : List String)
    (d : Smap) (n : Nat) (hlen : snps.length = alleles.length)
    (hdisp : dispatch cfg scripts (buildRef (snps.zip alleles)) [] 0 =
      .ok (d, n)) :
    ∀ v ∈ snps, (∃ q, alookup d v = some q) ∨
      (alookup d v = none ∧
        ∃ a o, (v, a) ∈ buildRef (snps.zip alleles) ∧
          fetch cfg (scripts v) v a [] = .ok o ∧ o.writes = []) := by
  intro v hv
  obtain ⟨a0, ha0⟩ := mem_zip_left snps alleles v hv hlen
  have hkey : v ∈ (buildRef (snps.zip alleles)).map Prod.fst :=
    buildRef_mem _ v ⟨a0, ha0⟩
  obtain ⟨a, ha⟩ := mem_keys_exists _ v hkey
  have h := dispatch_keys cfg scripts (buildRef (snps.zip alleles)) [] 0 d n
    (buildRef_keys_nodup _) hdisp (v, a) ha
  cases h with
  | inl hq => exact .inl hq
  | inr hq =>
    obtain ⟨heq, o, ho, hw⟩ := hq
    exact .inr ⟨heq, a, o, ha, ho, hw⟩

theorem C4_amended_every_key_witness :
    (∃ q, alookup ([] : Smap) "rs1" = some q) ∨
    (alookup ([] : Smap) "rs1" = none ∧
      ∃ a o, ("rs1", a) ∈ buildRef (["rs1"].zip ["A"]) ∧
        fetch cfgBase (scriptsZero "rs1") "rs1" a [] = .ok o ∧
        o.writes = []) :=
  C4_amended_every_key cfgBase scriptsZero ["rs1"] ["A"] [] 1 rfl rfl
    "rs1" (by simp)

/-- Claim C5 (code bug): the allele-column dtype check misfires in both
directions.  With default column settings the allele column of `tMk`
holds strings (pandas dtype `object`), yet the run exits fatally, because
`df[col].dtype != str` is true for every dtype `read_csv` produces.
Conversely an explicitly configured, present allele column is never
dtype-checked: with a numeric (`int64`) allele column the run proceeds
through network activity and writes its output. -/
theorem C5_dtype_check_misfires :
    ALFF_run cfgBase scripts404 tMk ⟨[], 0, 0⟩ =
      .error .exitAlleleNonString ∧
    tMk.dtypeOf "allele" = .object ∧
    resolveAlleleCol cfgCols tNum = .ok "allele" ∧
    ALFF_run cfgCols scripts404 tNum ⟨[], 0, 0⟩ =
      .ok (⟨[("rs1", -1)], 1, 1⟩,
        ⟨["MarkerName", "allele", "freq"], [["rs1", "1"]], [(-1 : ℚ)]⟩) :=
  ⟨rfl, rfl, rfl, rfl⟩

/-- Claim C6 (confirmed): retries are for timeouts only.  A non-200
response on the first attempt records `-1` with exactly one request made
and no retry; and when the first N-1 of N attempts time out and the Nth
succeeds with a parseable body containing a matching allele, the final
recorded value is the parsed frequency (not `-1`) and exactly N requests
were made. -/
theorem C6_retry_policy (cfg : Config) (script : Nat → Resp)
    (snp allele : String) (d : Smap) :
    (∀ status body, 1 ≤ cfg.attempts → script 0 = .http status body →
      status ≠ 200 →
      fetch cfg script snp allele d =
        .ok ⟨aset d snp (-1), 1, [(snp, -1)]⟩) ∧
    (∀ b e rest res p, 1 ≤ cfg.attempts →
      (∀ i, i + 1 < cfg.attempts → script i = .timeout) →
      script (cfg.attempts - 1) = .http 200 (some b) →
      b.results = some (e :: rest) →
      navigate e cfg.organism cfg.population = some res →
      (res.map Prod.snd).sum ≠ 0 →
      res.find? (fun q => pyUpper q.1 == pyUpper allele) = some p →
      ∃ o, fetch cfg script snp allele d = .ok o ∧
        o.calls = cfg.attempts ∧
        alookup o.d snp =
          some ((p.2 : ℚ) / ((res.map Prod.snd).sum : ℚ)) ∧
        ((p.2 : ℚ) / ((res.map Prod.snd).sum : ℚ)) ≠ -1) := by
  constructor
  · intro status body h1 hscr hne
    refine fetch_first_some cfg script snp allele d h1 (-1) ?_
    rw [hscr]
    exact step_non200 cfg allele status body hne
  · intro b e rest res p h1 hto hlast hres hnav hsum hfind
    obtain ⟨k, hN⟩ : ∃ k, cfg.attempts = k + 1 := ⟨cfg.attempts - 1, by omega⟩
    have hk1 : cfg.attempts - 1 = k := by omega
    rw [hk1] at hlast
    have hstep : step cfg allele (script k) =
        .done (some ((p.2 : ℚ) / ((res.map Prod.snd).sum : ℚ))) := by
      rw [hlast]
      exact step_parse cfg allele b e rest res p hres hnav hsum hfind
    have h1s : scriptOutcome cfg allele script (0 + k) 1 =
        .ok ([(p.2 : ℚ) / ((res.map Prod.snd).sum : ℚ)], 1) := by
      simp only [scriptOutcome, Nat.zero_add, hstep]
    have ht := scriptOutcome_timeouts cfg allele script k 1 0
      (fun j hj => by rw [Nat.zero_add, hto j (by omega)]; rfl)
    have ht2 : scriptOutcome cfg allele script 0 (k + 1) =
        .ok (List.replicate k (-1 : ℚ) ++
          [(p.2 : ℚ) / ((res.map Prod.snd).sum : ℚ)], 1 + k) := by
      rw [ht, h1s]
    have hfe := fetch_eq cfg script snp allele d
    rw [hN, ht2] at hfe
    refine ⟨_, hfe, ?_, ?_, ?_⟩
    · show 1 + k = cfg.attempts
      omega
    · show alookup (applyVals snp d (List.replicate k (-1 : ℚ) ++
          [(p.2 : ℚ) / ((res.map Prod.snd).sum : ℚ)])) snp = _
      rw [alookup_applyVals_self, List.getLast?_concat]
    · have h0 : (0 : ℚ) ≤ (p.2 : ℚ) / ((res.map Prod.snd).sum : ℚ) :=
        div_nonneg (Nat.cast_nonneg _) (Nat.cast_nonneg _)
      intro hq
      rw [hq] at h0
      norm_num at h0

theorem C6_retry_policy_witness :
    fetch cfgBase (scripts404 "rs1") "rs1" "A" [] =
      .ok ⟨aset [] "rs1" (-1), 1, [("rs1", -1)]⟩ ∧
    (∃ o, fetch cfgTwo scriptTimeoutThenAT "rs1" "a" [] = .ok o ∧
      o.calls = cfgTwo.attempts ∧
      alookup o.d "rs1" = some ((3 : ℚ) / 10)) ∧
    ((3 : ℚ) / 10 ≠ -1) := by
  refine ⟨?_, ?_, by norm_num⟩
  · exact (C6_retry_policy cfgBase (scripts404 "rs1") "rs1" "A" []).1
      404 none (by decide) rfl (by decide)
  · obtain ⟨o, ho, hc, ha, hn⟩ :=
      (C6_retry_policy cfgTwo scriptTimeoutThenAT "rs1" "a" []).2
        (goodBody "PRJNA507278" "SAMN10492695" [("A", 30), ("T", 70)])
        entryAT [] [("A", 30), ("T", 70)] ("A", 30) (by decide)
        (fun i hi => by
          have hatt : cfgTwo.attempts = 2 := rfl
          rw [hatt] at hi
          have h0 : i = 0 := by omega
          subst h0
          rfl)
        rfl rfl rfl (by decide) (by decide)
    refine ⟨o, ho, hc, ?_⟩
    rw [ha]
    congr 1
    push_cast [List.map_cons, List.map_nil, List.sum_cons, List.sum_nil]
    norm_num

/-- Claim C7 (confirmed): on a successful response with nonzero total
counts and a case-insensitive match for the target allele, the Fetcher
records frequency = matched count / total, a value in [0, 1]. -/
theorem C7_case_insensitive_frequency (cfg : Config) (script : Nat → Resp)
    (snp allele : String) (d : Smap) (b : Body) (e : SnpEntry)
    (rest : List SnpEntry) (res : List (String × Nat)) (p : String × Nat)
    (h1 : 1 ≤ cfg.attempts)
    (hscr : script 0 = .http 200 (some b))
    (hres : b.results = some (e :: rest))
    (hnav : navigate e cfg.organism cfg.population = some res)
    (hsum : (res.map Prod.snd).sum ≠ 0)
    (hfind : res.find? (fun q => pyUpper q.1 == pyUpper allele) = some p) :
    ∃ o, fetch cfg script snp allele d = .ok o ∧
      alookup o.d snp = some ((p.2 : ℚ) / ((res.map Prod.snd).sum : ℚ)) ∧
      0 ≤ (p.2 : ℚ) / ((res.map Prod.snd).sum : ℚ) ∧
      (p.2 : ℚ) / ((res.map Prod.snd).sum : ℚ) ≤ 1 := by
  have hstep : step cfg allele (script 0) =
      .done (some ((p.2 : ℚ) / ((res.map Prod.snd).sum : ℚ))) := by
    rw [hscr]
    exact step_parse cfg allele b e rest res p hres hnav hsum hfind
  refine ⟨_, fetch_first_some cfg script snp allele d h1 _ hstep, ?_, ?_, ?_⟩
  · exact alookup_aset_self d snp _
  · exact div_nonneg (Nat.cast_nonneg _) (Nat.cast_nonneg _)
  · have hmem : p ∈ res := List.mem_of_find?_eq_some hfind
    have hmem2 : p.2 ∈ res.map Prod.snd := List.mem_map_of_mem Prod.snd hmem
    have hle : p.2 ≤ (res.map Prod.snd).sum :=
      List.single_le_sum (fun x _ => Nat.zero_le x) _ hmem2
    have hpos : (0 : ℚ) < ((res.map Prod.snd).sum : ℚ) := by
      exact_mod_cast Nat.pos_of_ne_zero hsum
    rw [div_le_one hpos]
    exact_mod_cast hle

theorem C7_case_insensitive_frequency_witness :
    ∃ o, fetch cfgBase (scriptsAT "rs1") "rs1" "a" [] = .ok o ∧
      alookup o.d "rs1" = some ((3 : ℚ) / 10) ∧
      0 ≤ (3 : ℚ) / 10 ∧ (3 : ℚ) / 10 ≤ 1 := by
  obtain ⟨o, ho, ha, h0, h1⟩ := C7_case_insensitive_frequency cfgBase
    (scriptsAT "rs1") "rs1" "a" []
    (goodBody "PRJNA507278" "SAMN10492695" [("A", 30), ("T", 70)])
    entryAT [] [("A", 30), ("T", 70)] ("A", 30)
    (by decide) rfl rfl rfl (by decide) (by decide)
  refine ⟨o, ho, ?_, by norm_num, by norm_num⟩
  rw [ha]
  congr 1
  push_cast [List.map_cons, List.map_nil, List.sum_cons, List.sum_nil]
  norm_num

/-- Claim C8 (confirmed): a successful response whose per-allele counts
sum to zero leaves the dictionary untouched (no write at all) and the
invocation returns normally; a row of the output table whose merge-column
value is that identifier then receives the default `-1` (the model has no
NaN: `fillna` is the `-1` default of the merge lookup). -/
theorem C8_zero_total_default (cfg : Config) (script : Nat → Resp)
    (snp allele : String) (d : Smap) (b : Body) (e : SnpEntry)
    (rest : List SnpEntry) (res : List (String × Nat))
    (h1 : 1 ≤ cfg.attempts)
    (hscr : script 0 = .http 200 (some b))
    (hres : b.results = some (e :: rest))
    (hnav : navigate e cfg.organism cfg.population = some res)
    (hsum : (res.map Prod.snd).sum = 0) :
    fetch cfg script snp allele d = .ok ⟨d, 1, []⟩ ∧
    (∀ (t : Table) (vs : List String) (m : Merged) (i : Nat),
      alookup d snp = none →
      Table.colVals t "MarkerName" = some vs →
      mergeRun t d = .ok m →
      vs[i]? = some snp →
      m.freqs[i]? = some (-1 : ℚ)) := by
  have hstep : step cfg allele (script 0) = .done none := by
    rw [hscr]
    exact step_zero_total cfg allele b e rest res hres hnav hsum
  refine ⟨fetch_first_none cfg script snp allele d h1 hstep, ?_⟩
  intro t vs m i hnone hcol hmerge hvi
  simp only [mergeRun, hcol] at hmerge
  simp only [Except.ok.injEq] at hmerge
  rw [← hmerge]
  show (vs.map (fun v => (alookup d v).getD (-1)))[i]? = some (-1 : ℚ)
  rw [List.getElem?_map, hvi]
  simp [hnone]

theorem C8_zero_total_default_witness :
    fetch cfgBase (scriptsZero "rs1") "rs1" "A" [] = .ok ⟨[], 1, []⟩ ∧
    mMk.freqs[0]? = some (-1 : ℚ) := by
  have h := C8_zero_total_default cfgBase (scriptsZero "rs1") "rs1" "A" []
    (goodBody "PRJNA507278" "SAMN10492695" [("A", 0), ("T", 0)])
    ⟨some [("PRJNA507278", ⟨some [("SAMN10492695", [("A", 0), ("T", 0)])]⟩)]⟩
    [] [("A", 0), ("T", 0)] (by decide) rfl rfl rfl (by decide)
  exact ⟨h.1, h.2 tMk ["rs1"] mMk 0 rfl rfl rfl rfl⟩

/-- Claim C9 counterexample: one Fetcher invocation can write the same
ResultMap entry twice — a timeout on the first attempt writes a tentative
`-1`, and the successful second attempt overwrites it with the parsed
frequency, so the write trace for `rs1` has length two. -/
theorem C9_two_writes_counterexample :
    fetch cfgTwo scriptTimeoutThenAT "rs1" "a" [] = .ok foTwoWrites ∧
    foTwoWrites.writes.length = 2 ∧
    foTwoWrites.writes.map Prod.fst = ["rs1", "rs1"] :=
  ⟨rfl, rfl, rfl⟩

/-- Claim C9 amended: every write an invocation performs targets its own
identifier, and the invocation has exactly one final outcome — the entry
ends at the last written value when any write happened, and is untouched
otherwise; but an invocation may write the entry several times (each
timeout writes a tentative `-1` that a later attempt may overwrite). -/
theorem C9_amended_one_final_outcome (cfg : Config) (script : Nat → Resp)
    (snp allele : String) (d : Smap) (o : FetchOut)
    (h : fetch cfg script snp allele d = .ok o) :
    (∀ w ∈ o.writes, w.1 = snp) ∧
    alookup o.d snp = (match o.writes.getLast? with
      | none => alookup d snp
      | some w => some w.2) ∧
    (∀ k, k ≠ snp → alookup o.d k = alookup d k) := by
  rw [fetch_eq] at h
  split at h
  · exact absurd h (by simp)
  next vs n heq =>
    simp only [Except.ok.injEq] at h
    subst h
    refine ⟨?_, ?_, ?_⟩
    · intro w hw
      have hw2 : w ∈ vs.map (fun v => (snp, v)) := hw
      simp only [List.mem_map] at hw2
      obtain ⟨v, _, he⟩ := hw2
      rw [← he]
    · show alookup (applyVals snp d vs) snp =
        (match (vs.map (fun v => (snp, v))).getLast? with
          | none => alookup d snp
          | some w => some w.2)
      rw [alookup_applyVals_self, List.getLast?_map]
      cases hv : vs.getLast? with
      | none => rfl
      | some u => rfl
    · intro k hk
      show alookup (applyVals snp d vs) k = alookup d k
      exact alookup_applyVals_ne snp k hk vs d

theorem C9_amended_one_final_outcome_witness :
    (∀ w ∈ foTwoWrites.writes, w.1 = "rs1") ∧
    alookup foTwoWrites.d "rs1" = (match foTwoWrites.writes.getLast? with
      | none => alookup ([] : Smap) "rs1"
      | some w => some w.2) ∧
    (∀ k, k ≠ "rs1" →
      alookup foTwoWrites.d k = alookup ([] : Smap) k) :=
  C9_amended_one_final_outcome cfgTwo scriptTimeoutThenAT "rs1" "a" []
    foTwoWrites rfl

end Alff
